import Mathlib

/-!
Verification of `airpods-and-bluetooth-battery.py`.

The source program has two pieces of logic:

* `parse_airpods_data`: a pure decoder that renders the Apple manufacturer
  data bytes as a lowercase hex string and reads battery digits at string
  indices 12, 13 and 15.
* `Application.scan_and_update` / `Application.update_gui`: a scan loop that
  classifies BLE advertisement observations into a name-keyed device map and
  publishes status strings and the map to the Tk presentation layer.

We embed both shallowly: bytes are `Fin 256`, Python dicts are insertion
ordered association lists, and the GUI boundary is a list of emitted events
applied to an explicit `GuiState`.
-/

namespace AirpodsBattery

/-! ## Source constants (lines 9-11 of the source) -/

def APPLE_MANUFACTURER_ID : Nat := 76

def DATA_LENGTH : Nat := 27

def BATTERY_SERVICE_UUID : String := "0000180f-0000-1000-8000-00805f9b34fb"

/-! ## The decoder `parse_airpods_data` (source lines 14-30) -/

/-- A byte, as stored in a Python `bytes` object. -/
abbrev Byte := Fin 256

/-- Model of `raw_data.hex()`: each byte becomes two lowercase hex characters,
high nibble first.  `Nat.digitChar` yields `'0'`-`'9'` and lowercase
`'a'`-`'f'` on inputs below 16, matching Python's `bytes.hex`. -/
def bytesHex : List Byte → List Char
  | [] => []
  | b :: bs => Nat.digitChar (b.val / 16) :: Nat.digitChar (b.val % 16) :: bytesHex bs

/-- Model of `int(hex_char, 16)` restricted to the characters `bytesHex` produces
(decimal digits and lowercase `'a'`-`'f'`). -/
def hexVal (c : Char) : Nat :=
  if c.isDigit then c.toNat - 48 else c.toNat - 87

/-- The nested `get_level` of `parse_airpods_data`:
`level * 10 if level <= 10 else None`. -/
def get_level (c : Char) : Option Nat :=
  let level := hexVal c
  if level ≤ 10 then some (level * 10) else none

/-- The decoder `parse_airpods_data`.  Python raises `IndexError` when the hex string is
too short for index 12, 13 or 15; we model that failure as `none`.  On
success the result is the returned dict, an insertion-ordered list of
`(component, optional percent)` pairs. -/
def parse_airpods_data (raw_data : List Byte) : Option (List (String × Option Nat)) :=
  let hex_data := bytesHex raw_data
  match hex_data[12]?, hex_data[13]?, hex_data[15]? with
  | some c12, some c13, some c15 =>
      some [("Left", get_level c12), ("Right", get_level c13), ("Case", get_level c15)]
  | _, _, _ => none

/-- Spec-side reading of one hex digit, following the claim's words: a digit
`d ≤ 10` reads as `d * 10` percent, a digit in `[11, 15]` reads as unknown. -/
def specReading (d : Nat) : Option Nat :=
  if d ≤ 10 then some (d * 10) else none

/-- Spec-side view of "the hex digit at string index `i`" of the rendered
hex string (defaulting to 0 out of range, which the claims never hit). -/
def hexDigitAt (raw : List Byte) (i : Nat) : Nat :=
  hexVal ((bytesHex raw)[i]?.getD '0')

/-- A 27-byte input realizing the spec's worked example: hex character `'a'`
at string index 12, `'5'` at index 13, `'0'` at index 15 (byte 6 is `0xa5`,
byte 7 is `0x30`). -/
def exampleRaw : List Byte :=
  List.replicate 6 (0 : Byte) ++ [(165 : Byte), (48 : Byte)] ++ List.replicate 19 (0 : Byte)

/-- A second 27-byte input agreeing with `exampleRaw` on bytes 6 and 7 only. -/
def exampleRaw2 : List Byte :=
  List.replicate 6 (255 : Byte) ++ [(165 : Byte), (48 : Byte)] ++ List.replicate 19 (255 : Byte)

/-- An all-zero 27-byte input. -/
def zeros27 : List Byte := List.replicate 27 (0 : Byte)

/-! ## The scan loop `Application.scan_and_update` (source lines 86-111)

A scan cycle iterates over
`scanner.discovered_devices_and_advertisement_data.values()`, a sequence of
`(dev, adv)` pairs.  We model Python dicts as insertion-ordered association
lists (`List.lookup` finds the first, and only, binding of a key). -/

/-- The fields of a bleak `BLEDevice` the source reads. -/
structure Device where
  name : Option String
  address : String
  deriving DecidableEq

/-- The fields of a bleak `AdvertisementData` the source reads:
`manufacturer_data` is a dict keyed by numeric manufacturer ID. -/
structure Advertisement where
  manufacturer_data : List (Nat × List Byte)
  service_uuids : List String
  deriving DecidableEq

/-- One entry of the scan loop's `devices_found` dict: the source stores
`{"type": "airpods", "data": md}` or `{"type": "standard", "address": a}`. -/
inductive DeviceInfo where
  | airpods (data : List Byte)
  | standard (address : String)
  deriving DecidableEq

/-- Python's `name or default` on an optional string: `None` and the empty
string are falsy, any other string is returned unchanged. -/
def pyOr (name : Option String) (default : String) : String :=
  match name with
  | some s => if s = "" then default else s
  | none => default

/-- The `elif BATTERY_SERVICE_UUID in adv.service_uuids` branch
(source lines 100-106). -/
def standardStep (devices_found : List (String × DeviceInfo)) (o : Device × Advertisement) :
    List (String × DeviceInfo) :=
  if o.2.service_uuids.contains BATTERY_SERVICE_UUID then
    let name := pyOr o.1.name "Unknown Device"
    if (devices_found.lookup name).isNone then
      devices_found ++ [(name, DeviceInfo.standard o.1.address)]
    else devices_found
  else devices_found

/-- One iteration of the classification loop (source lines 95-106):
`if APPLE_MANUFACTURER_ID in adv.manufacturer_data and
len(adv.manufacturer_data[APPLE_MANUFACTURER_ID]) == DATA_LENGTH: ...`. -/
def scanStep (devices_found : List (String × DeviceInfo)) (o : Device × Advertisement) :
    List (String × DeviceInfo) :=
  match o.2.manufacturer_data.lookup APPLE_MANUFACTURER_ID with
  | some md =>
    if md.length = DATA_LENGTH then
      let name := pyOr o.1.name "AirPods"
      if (devices_found.lookup name).isNone then
        devices_found ++ [(name, DeviceInfo.airpods md)]
      else devices_found
    else standardStep devices_found o
  | none => standardStep devices_found o

/-- The `devices_found` dict built by one scan cycle over the cycle's
observations, in iteration order. -/
def scan_and_update_classify (obs : List (Device × Advertisement)) :
    List (String × DeviceInfo) :=
  obs.foldl scanStep []

/-- How one observation classifies, independent of the accumulator: the
resolved name and stored payload, or `none` when the observation matches
neither predicate. -/
def classifyObs (o : Device × Advertisement) : Option (String × DeviceInfo) :=
  match o.2.manufacturer_data.lookup APPLE_MANUFACTURER_ID with
  | some md =>
    if md.length = DATA_LENGTH then
      some (pyOr o.1.name "AirPods", DeviceInfo.airpods md)
    else if o.2.service_uuids.contains BATTERY_SERVICE_UUID then
      some (pyOr o.1.name "Unknown Device", DeviceInfo.standard o.1.address)
    else none
  | none =>
    if o.2.service_uuids.contains BATTERY_SERVICE_UUID then
      some (pyOr o.1.name "Unknown Device", DeviceInfo.standard o.1.address)
    else none

/-! ## The presentation boundary (source lines 74-77, 89, 109-110, 113-144)

`scan_and_update` hands three things per cycle to the Tk main loop, in
order, via `self.after(0, ...)`: a "Scanning..." status, the `devices_found`
dict (consumed by `update_gui`), and a "Scan complete" status.  `after`
queues callbacks FIFO, so the boundary sees an ordered event stream. -/

/-- One callback queued to the Tk main loop. -/
inductive GuiEvent where
  | statusUpdate (s : String)
  | snapshotUpdate (devices : List (String × DeviceInfo))
  deriving DecidableEq

/-- The Tk state the source mutates: the status label's text and the
per-device frames (`self.device_frames` keyed by name, each holding the
content last rendered into it). -/
structure GuiState where
  status : String
  device_frames : List (String × DeviceInfo)
  deriving DecidableEq

/-- The method `Application.update_gui` (source lines 113-144).  An empty dict only
sets the retry status and returns, leaving the frames untouched.  Otherwise
frames whose name is not in `devices` are destroyed; every name in
`devices` gets a frame (existing frames keep their position, new names are
appended in dict order) whose content is cleared and rebuilt from the
cycle's info. -/
def update_gui (st : GuiState) (devices : List (String × DeviceInfo)) : GuiState :=
  if devices.isEmpty then
    { st with status := "No devices found. Retrying..." }
  else
    let kept := st.device_frames.filter (fun p => (devices.lookup p.1).isSome)
    let keptNames := kept.map Prod.fst
    { st with
      device_frames :=
        kept.map (fun p => (p.1, (devices.lookup p.1).getD p.2)) ++
        devices.filter (fun d => ! keptNames.contains d.1) }

/-- Processing one queued callback on the Tk main loop. -/
def apply_event (st : GuiState) (e : GuiEvent) : GuiState :=
  match e with
  | .statusUpdate s => { st with status := s }
  | .snapshotUpdate devices => update_gui st devices

/-- The events one iteration of the `while True` loop queues (source lines
89, 109, 110), in the order `self.after` queues them. -/
def scan_cycle_events (obs : List (Device × Advertisement)) : List GuiEvent :=
  [GuiEvent.statusUpdate "Scanning...",
   GuiEvent.snapshotUpdate (scan_and_update_classify obs),
   GuiEvent.statusUpdate "Scan complete. Next scan in 15s."]

/-- The event stream of a run of consecutive cycles, each cycle given by its
observation list. -/
def scan_trace (cycles : List (List (Device × Advertisement))) : List GuiEvent :=
  (cycles.map scan_cycle_events).flatten

/-- The GUI state after the main loop has drained one cycle's callbacks. -/
def apply_cycle (st : GuiState) (obs : List (Device × Advertisement)) : GuiState :=
  (scan_cycle_events obs).foldl apply_event st
/-- Concrete unnamed AirPods-style observation. -/
def devAir : Device := ⟨none, "00:11:22:33:44:55"⟩

def advAir : Advertisement := ⟨[(76, zeros27)], []⟩

/-- Concrete unnamed standard-battery observation. -/
def devStd : Device := ⟨none, "66:77:88:99:AA:BB"⟩

def advStd : Advertisement := ⟨[], [BATTERY_SERVICE_UUID]⟩

/-! ### Cycle-level properties -/

/-- The initial GUI state: the status label is created with text
"Scanning..." and `self.device_frames` is the empty dict (source lines
74-77). -/
def st0 : GuiState := ⟨"Scanning...", []⟩

/-- A cycle observing one unnamed AirPods-style device. -/
def cycleAir : List (Device × Advertisement) := [(devAir, advAir)]

/-- A cycle observing nothing. -/
def cycleEmpty : List (Device × Advertisement) := []

/-! ### Decoder lemmas -/

theorem bytesHex_length (bs : List Byte) : (bytesHex bs).length = 2 * bs.length := by
  induction bs with
  | nil => rfl
  | cons b bs ih => simp [bytesHex, ih]; omega

theorem bytesHex_get?_even (bs : List Byte) (i : Nat) :
    (bytesHex bs)[2 * i]? = bs[i]?.map (fun b => Nat.digitChar (b.val / 16)) := by
  induction bs generalizing i with
  | nil => simp [bytesHex]
  | cons b bs ih =>
    cases i with
    | zero => simp [bytesHex]
    | succ j =>
      have h2 : 2 * (j + 1) = 2 * j + 1 + 1 := by omega
      simp [bytesHex, h2, ih]

theorem bytesHex_get?_odd (bs : List Byte) (i : Nat) :
    (bytesHex bs)[2 * i + 1]? = bs[i]?.map (fun b => Nat.digitChar (b.val % 16)) := by
  induction bs generalizing i with
  | nil => simp [bytesHex]
  | cons b bs ih =>
    cases i with
    | zero => simp [bytesHex]
    | succ j =>
      have h2 : 2 * (j + 1) + 1 = 2 * j + 1 + 1 + 1 := by omega
      simp [bytesHex, h2, ih]

theorem hexVal_digitChar {n : Nat} (h : n < 16) : hexVal (Nat.digitChar n) = n := by
  interval_cases n <;> rfl

/-- On a 27-byte input the decoder succeeds and its three readings are
`get_level` applied to the nibbles of bytes 6 and 7. -/
theorem parse_airpods_data_eq_of_length (raw : List Byte) (h : raw.length = 27) :
    ∃ b6 b7, raw[6]? = some b6 ∧ raw[7]? = some b7 ∧
      parse_airpods_data raw =
        some [("Left", get_level (Nat.digitChar (b6.val / 16))),
              ("Right", get_level (Nat.digitChar (b6.val % 16))),
              ("Case", get_level (Nat.digitChar (b7.val % 16)))] := by
  have h6 : 6 < raw.length := by omega
  have h7 : 7 < raw.length := by omega
  have hb6 : raw[6]? = some (raw[6]) := List.getElem?_eq_getElem h6
  have hb7 : raw[7]? = some (raw[7]) := List.getElem?_eq_getElem h7
  refine ⟨raw[6], raw[7], hb6, hb7, ?_⟩
  have e12 : (bytesHex raw)[12]? = some (Nat.digitChar ((raw[6]).val / 16)) := by
    have := bytesHex_get?_even raw 6
    rw [hb6] at this; simpa using this
  have e13 : (bytesHex raw)[13]? = some (Nat.digitChar ((raw[6]).val % 16)) := by
    have := bytesHex_get?_odd raw 6
    rw [hb6] at this; simpa using this
  have e15 : (bytesHex raw)[15]? = some (Nat.digitChar ((raw[7]).val % 16)) := by
    have := bytesHex_get?_odd raw 7
    rw [hb7] at this; simpa using this
  simp [parse_airpods_data, e12, e13, e15]

/-- Sanity check matching the spec's §8 example: `'a'` at index 12, `'5'` at
index 13, `'0'` at index 15 decode to Left 100%, Right 50%, Case 0%. -/
theorem parse_exampleRaw :
    parse_airpods_data exampleRaw =
      some [("Left", some 100), ("Right", some 50), ("Case", some 0)] := by decide

/-- C1. On every 27-byte input the decoder returns exactly the three
readings Left, Right, Case in that order; Left is the reading of the hex
digit at string index 12, Right of index 13, Case of index 15, each read as
`d * 10` percent when `d ≤ 10` and as unknown when `d ∈ [11, 15]`. -/
theorem C1_decode_three_readings (raw : List Byte) (h : raw.length = 27) :
    parse_airpods_data raw =
      some [("Left", specReading (hexDigitAt raw 12)),
            ("Right", specReading (hexDigitAt raw 13)),
            ("Case", specReading (hexDigitAt raw 15))] ∧
    (∀ d, d ≤ 10 → specReading d = some (d * 10)) ∧
    (∀ d, 11 ≤ d → d ≤ 15 → specReading d = none) ∧
    specReading 0 = some 0 ∧ specReading 10 = some 100 := by
  obtain ⟨b6, b7, hb6, hb7, heq⟩ := parse_airpods_data_eq_of_length raw h
  have e12 : (bytesHex raw)[12]? = some (Nat.digitChar (b6.val / 16)) := by
    have := bytesHex_get?_even raw 6
    rw [hb6] at this; simpa using this
  have e13 : (bytesHex raw)[13]? = some (Nat.digitChar (b6.val % 16)) := by
    have := bytesHex_get?_odd raw 6
    rw [hb6] at this; simpa using this
  have e15 : (bytesHex raw)[15]? = some (Nat.digitChar (b7.val % 16)) := by
    have := bytesHex_get?_odd raw 7
    rw [hb7] at this; simpa using this
  refine ⟨?_, ?_, ?_, rfl, rfl⟩
  · rw [heq]
    simp only [hexDigitAt, e12, e13, e15, Option.getD_some]
    rfl
  · intro d hd; simp [specReading, hd]
  · intro d hd _; simp [specReading]; omega

theorem C1_witness :
    exampleRaw.length = 27 ∧
    (parse_airpods_data exampleRaw =
      some [("Left", specReading (hexDigitAt exampleRaw 12)),
            ("Right", specReading (hexDigitAt exampleRaw 13)),
            ("Case", specReading (hexDigitAt exampleRaw 15))] ∧
    (∀ d, d ≤ 10 → specReading d = some (d * 10)) ∧
    (∀ d, 11 ≤ d → d ≤ 15 → specReading d = none) ∧
    specReading 0 = some 0 ∧ specReading 10 = some 100) :=
  ⟨by decide, C1_decode_three_readings exampleRaw (by decide)⟩

/-- C8. Under the precondition that the input has exactly 27 bytes, the
rendered hex string has 54 characters, every index the decoder accesses
(12, 13, 15) is in bounds, and decoding always succeeds with a triple of
readings: the out-of-bounds failure branch is unreachable. -/
theorem C8_no_index_out_of_bounds (raw : List Byte) (h : raw.length = 27) :
    (bytesHex raw).length = 54 ∧
    (∀ i, i = 12 ∨ i = 13 ∨ i = 15 → i < (bytesHex raw).length) ∧
    ∃ readings, parse_airpods_data raw = some readings := by
  have hlen : (bytesHex raw).length = 54 := by rw [bytesHex_length, h]
  obtain ⟨b6, b7, _, _, heq⟩ := parse_airpods_data_eq_of_length raw h
  exact ⟨hlen, fun i hi => by rcases hi with h | h | h <;> omega, _, heq⟩

theorem C8_witness :
    zeros27.length = 27 ∧
    ((bytesHex zeros27).length = 54 ∧
    (∀ i, i = 12 ∨ i = 13 ∨ i = 15 → i < (bytesHex zeros27).length) ∧
    ∃ readings, parse_airpods_data zeros27 = some readings) :=
  ⟨by decide, C8_no_index_out_of_bounds zeros27 (by decide)⟩

/-- C9. Decoding is deterministic: it is a pure function of the input
bytes, so two runs on equal inputs give equal Left/Right/Case readings. -/
theorem C9_decode_deterministic (b1 b2 : List Byte) (h : b1 = b2) :
    parse_airpods_data b1 = parse_airpods_data b2 := by rw [h]

theorem C9_witness : parse_airpods_data zeros27 = parse_airpods_data zeros27 :=
  C9_decode_deterministic zeros27 zeros27 rfl

/-- C10. The decoder's output depends only on bytes 6 and 7: two 27-byte
inputs that agree at indices 6 and 7 decode identically, however the other
25 bytes differ. -/
theorem C10_depends_only_on_bytes_6_and_7 (b1 b2 : List Byte)
    (h1 : b1.length = 27) (h2 : b2.length = 27)
    (h6 : b1[6]? = b2[6]?) (h7 : b1[7]? = b2[7]?) :
    parse_airpods_data b1 = parse_airpods_data b2 := by
  obtain ⟨a6, a7, ha6, ha7, e1⟩ := parse_airpods_data_eq_of_length b1 h1
  obtain ⟨c6, c7, hc6, hc7, e2⟩ := parse_airpods_data_eq_of_length b2 h2
  have e6 : a6 = c6 := by
    have := ha6.symm.trans (h6.trans hc6)
    exact Option.some.inj this
  have e7 : a7 = c7 := by
    have := ha7.symm.trans (h7.trans hc7)
    exact Option.some.inj this
  rw [e1, e2, e6, e7]

theorem C10_witness :
    exampleRaw.length = 27 ∧ exampleRaw2.length = 27 ∧
    exampleRaw[6]? = exampleRaw2[6]? ∧ exampleRaw[7]? = exampleRaw2[7]? ∧
    exampleRaw ≠ exampleRaw2 ∧
    parse_airpods_data exampleRaw = parse_airpods_data exampleRaw2 :=
  ⟨by decide, by decide, by decide, by decide, by decide,
    C10_depends_only_on_bytes_6_and_7 exampleRaw exampleRaw2
      (by decide) (by decide) (by decide) (by decide)⟩

/-! ### Classification lemmas -/

/-- One loop iteration adds exactly the observation's classification, and
only when its resolved name is not yet a key of `devices_found`. -/
theorem scanStep_eq_classifyObs (acc : List (String × DeviceInfo)) (o : Device × Advertisement) :
    scanStep acc o =
      match classifyObs o with
      | none => acc
      | some (n, i) => if (acc.lookup n).isNone then acc ++ [(n, i)] else acc := by
  unfold scanStep standardStep classifyObs
  cases o.2.manufacturer_data.lookup APPLE_MANUFACTURER_ID with
  | none =>
    by_cases hs : o.2.service_uuids.contains BATTERY_SERVICE_UUID = true
    · simp only [if_pos hs]
    · simp only [if_neg hs]
  | some md =>
    by_cases hl : md.length = DATA_LENGTH
    · simp only [if_pos hl]
    · simp only [if_neg hl]
      by_cases hs : o.2.service_uuids.contains BATTERY_SERVICE_UUID = true
      · simp only [if_pos hs]
      · simp only [if_neg hs]

/-- C2. An observation classifies as EarbudsStyle (an `airpods` entry)
iff its manufacturer-data dict has an entry for ID 76 of byte length exactly
27; any other length for ID 76 is never EarbudsStyle; and an unnamed
matching device resolves to the placeholder name "AirPods". -/
theorem C2_earbuds_iff_id76_len27 (dev : Device) (adv : Advertisement) :
    ((∃ n d, classifyObs (dev, adv) = some (n, DeviceInfo.airpods d)) ↔
      (∃ md, adv.manufacturer_data.lookup APPLE_MANUFACTURER_ID = some md ∧
        md.length = DATA_LENGTH)) ∧
    (∀ md, adv.manufacturer_data.lookup APPLE_MANUFACTURER_ID = some md →
      md.length ≠ DATA_LENGTH →
      ∀ n d, classifyObs (dev, adv) ≠ some (n, DeviceInfo.airpods d)) ∧
    (dev.name = none →
      ∀ md, adv.manufacturer_data.lookup APPLE_MANUFACTURER_ID = some md →
      md.length = DATA_LENGTH →
      classifyObs (dev, adv) = some ("AirPods", DeviceInfo.airpods md)) := by
  refine ⟨?_, ?_, ?_⟩
  · unfold classifyObs
    cases h : adv.manufacturer_data.lookup APPLE_MANUFACTURER_ID
    all_goals simp
    all_goals split_ifs
    all_goals simp_all
  · intro md hmd hlen n d
    unfold classifyObs
    rw [hmd]
    simp only [hlen, if_false]
    split_ifs
    all_goals simp
  · intro hname md hmd hlen
    unfold classifyObs
    rw [hmd]
    simp [hlen, pyOr, hname]

theorem C2_witness :
    classifyObs (devAir, advAir) = some ("AirPods", DeviceInfo.airpods zeros27) :=
  (C2_earbuds_iff_id76_len27 devAir advAir).2.2 rfl zeros27 rfl rfl

/-- C3. An observation that is not EarbudsStyle is classified
StandardBattery exactly when its service-UUID set contains the battery
service UUID; its payload is the connection address only, its name defaults
to "Unknown Device" when unnamed; and an observation matching neither
predicate leaves `devices_found` completely unchanged (no entry at all). -/
theorem C3_standard_battery_classification (dev : Device) (adv : Advertisement)
    (hnot : ∀ md, adv.manufacturer_data.lookup APPLE_MANUFACTURER_ID = some md →
      md.length ≠ DATA_LENGTH) :
    (adv.service_uuids.contains BATTERY_SERVICE_UUID = true →
      classifyObs (dev, adv) =
        some (pyOr dev.name "Unknown Device", DeviceInfo.standard dev.address) ∧
      (dev.name = none → pyOr dev.name "Unknown Device" = "Unknown Device")) ∧
    (adv.service_uuids.contains BATTERY_SERVICE_UUID = false →
      classifyObs (dev, adv) = none ∧
      ∀ acc, scanStep acc (dev, adv) = acc) := by
  constructor
  · intro hsvc
    have hsvc' : BATTERY_SERVICE_UUID ∈ adv.service_uuids := by simpa using hsvc
    constructor
    · unfold classifyObs
      cases h : adv.manufacturer_data.lookup APPLE_MANUFACTURER_ID with
      | none => simp [hsvc']
      | some md => simp [hnot md h, hsvc']
    · intro hname; simp [pyOr, hname]
  · intro hsvc
    have hsvc' : BATTERY_SERVICE_UUID ∉ adv.service_uuids := by simpa using hsvc
    have hc : classifyObs (dev, adv) = none := by
      unfold classifyObs
      cases h : adv.manufacturer_data.lookup APPLE_MANUFACTURER_ID with
      | none => simp [hsvc']
      | some md => simp [hnot md h, hsvc']
    refine ⟨hc, fun acc => ?_⟩
    rw [scanStep_eq_classifyObs, hc]

/-! ### Association-list helper lemmas (Python dict membership/insertion) -/

theorem lookup_append_first {α β : Type} [BEq α] (l1 l2 : List (α × β)) (k : α) :
    (l1 ++ l2).lookup k =
      match l1.lookup k with
      | some v => some v
      | none => l2.lookup k := by
  induction l1 with
  | nil => simp
  | cons p l1 ih =>
    obtain ⟨a, b⟩ := p
    rw [List.cons_append, List.lookup_cons, List.lookup_cons]
    cases k == a <;> simp [ih]

theorem lookup_eq_none_iff_keys {α β : Type} [BEq α] [LawfulBEq α]
    (l : List (α × β)) (k : α) :
    l.lookup k = none ↔ k ∉ l.map Prod.fst := by
  induction l with
  | nil => simp
  | cons p l ih =>
    obtain ⟨a, b⟩ := p
    rw [List.lookup_cons]
    by_cases h : k = a
    · subst h; simp
    · have hb : (k == a) = false := by simp [h]
      simp [hb, ih, h]

theorem countP_key_eq_of_nodup_keys {α β : Type} [BEq α] [LawfulBEq α]
    (l : List (α × β)) (k : α) (h : (l.map Prod.fst).Nodup) :
    l.countP (fun p => p.1 == k) = if (l.lookup k).isSome then 1 else 0 := by
  induction l with
  | nil => simp
  | cons p l ih =>
    obtain ⟨a, b⟩ := p
    simp only [List.map_cons, List.nodup_cons] at h
    rw [List.countP_cons, List.lookup_cons]
    by_cases hk : k = a
    · subst hk
      have hnone : l.lookup k = none := (lookup_eq_none_iff_keys l k).mpr h.1
      have h0 : l.countP (fun p => p.1 == k) = 0 := by
        rw [ih h.2, hnone]; rfl
      simp [h0]
    · have hb : (k == a) = false := by simp [hk]
      have hb' : (a == k) = false := by simp [Ne.symm hk]
      rw [hb]
      simp [hb', ih h.2]

/-! ### The `devices_found` dict of a cycle: first-seen wins -/

/-- Keys of `devices_found` stay duplicate-free across the loop (a dict
cannot hold two bindings of one name). -/
theorem foldl_scanStep_keys_nodup (obs : List (Device × Advertisement))
    (acc : List (String × DeviceInfo)) (h : (acc.map Prod.fst).Nodup) :
    ((obs.foldl scanStep acc).map Prod.fst).Nodup := by
  induction obs generalizing acc with
  | nil => simpa using h
  | cons o obs ih =>
    rw [List.foldl_cons]
    apply ih
    rw [scanStep_eq_classifyObs]
    cases hc : classifyObs o with
    | none => exact h
    | some ni =>
      obtain ⟨n, i⟩ := ni
      by_cases hn : (acc.lookup n).isNone
      · have hmem : n ∉ acc.map Prod.fst :=
          (lookup_eq_none_iff_keys acc n).mp (Option.isNone_iff_eq_none.mp hn)
        simp [hn, List.nodup_append, h, hmem]
      · simp [hn, h]

/-- The binding a name gets in `devices_found` is the classification of the
first observation of the cycle resolving to that name; later ones never
change it. -/
theorem foldl_scanStep_lookup (obs : List (Device × Advertisement))
    (acc : List (String × DeviceInfo)) (name : String) :
    (obs.foldl scanStep acc).lookup name =
      match acc.lookup name with
      | some v => some v
      | none => ((obs.filterMap classifyObs).find? (fun p => p.1 == name)).map Prod.snd := by
  induction obs generalizing acc with
  | nil => cases h : acc.lookup name <;> simp [h]
  | cons o obs ih =>
    rw [List.foldl_cons, ih, scanStep_eq_classifyObs]
    cases hc : classifyObs o with
    | none => rw [List.filterMap_cons_none hc]
    | some ni =>
      obtain ⟨n, i⟩ := ni
      rw [List.filterMap_cons_some hc, List.find?_cons]
      dsimp only
      by_cases hn : n = name
      · subst hn
        have hpred : (n == n) = true := by simp
        by_cases ha : (acc.lookup n).isNone
        · have hnone : acc.lookup n = none := Option.isNone_iff_eq_none.mp ha
          rw [if_pos ha, lookup_append_first, hnone]
          simp [List.lookup_cons]
        · rw [if_neg ha]
          cases h2 : acc.lookup n with
          | none => rw [h2] at ha; simp at ha
          | some v => rfl
      · have hpred : (n == name) = false := by simp [hn]
        have hpred' : (name == n) = false := by simp [Ne.symm hn]
        by_cases ha : (acc.lookup n).isNone
        · rw [if_pos ha, lookup_append_first]
          cases h2 : acc.lookup name <;>
            simp [List.lookup_cons, hpred, hpred', h2]
        · rw [if_neg ha]
          cases h2 : acc.lookup name <;> simp [hpred, h2]

/-- C4. Within one scan cycle, the built `devices_found` dict binds each
resolved name to the classification of the first qualifying observation of
that name in iteration order, and holds exactly one entry for a name that
some observation resolves to (zero otherwise): later duplicate-named
observations are dropped, neither merged nor overwriting. -/
theorem C4_first_classification_wins (obs : List (Device × Advertisement)) (name : String) :
    (scan_and_update_classify obs).lookup name =
      ((obs.filterMap classifyObs).find? (fun p => p.1 == name)).map Prod.snd ∧
    (scan_and_update_classify obs).countP (fun p => p.1 == name) =
      if (((obs.filterMap classifyObs).find? (fun p => p.1 == name)).isSome) then 1 else 0 := by
  have hlk := foldl_scanStep_lookup obs [] name
  simp only [List.lookup_nil] at hlk
  have hnd : ((scan_and_update_classify obs).map Prod.fst).Nodup :=
    foldl_scanStep_keys_nodup obs [] (by simp)
  constructor
  · unfold scan_and_update_classify
    exact hlk
  · rw [countP_key_eq_of_nodup_keys _ _ hnd]
    unfold scan_and_update_classify
    rw [hlk]
    cases ((obs.filterMap classifyObs).find? (fun p => p.1 == name)) <;> simp

theorem mem_of_lookup_eq_some {α β : Type} [BEq α] [LawfulBEq α]
    {l : List (α × β)} {k : α} {v : β} (h : l.lookup k = some v) : (k, v) ∈ l := by
  induction l with
  | nil => simp at h
  | cons p l ih =>
    obtain ⟨a, b⟩ := p
    rw [List.lookup_cons] at h
    by_cases hk : k = a
    · subst hk
      rw [beq_self_eq_true] at h
      simp only [Option.some.injEq] at h
      subst h
      exact List.mem_cons_self _ _
    · have hb : (k == a) = false := by simp [hk]
      rw [hb] at h
      exact List.mem_cons_of_mem _ (ih h)

/-- Lookup ignores a filter whose predicate accepts every entry with the
looked-up key. -/
theorem lookup_filter_of_key {α β : Type} [BEq α] [LawfulBEq α]
    (l : List (α × β)) (q : α × β → Bool) (k : α)
    (hq : ∀ p ∈ l, p.1 = k → q p = true) :
    (l.filter q).lookup k = l.lookup k := by
  induction l with
  | nil => rfl
  | cons p l ih =>
    obtain ⟨a, b⟩ := p
    have ih' := ih (fun p hp => hq p (List.mem_cons_of_mem _ hp))
    by_cases hk : a = k
    · subst hk
      rw [List.filter_cons, hq (a, b) (List.mem_cons_self _ _) rfl]
      simp only [if_true]
      rw [List.lookup_cons, List.lookup_cons, beq_self_eq_true]
    · have hb : (k == a) = false := by simp [Ne.symm hk]
      rw [List.filter_cons]
      cases hq2 : q (a, b)
      · simp only [Bool.false_eq_true, if_false]
        rw [ih', List.lookup_cons, hb]
      · simp only [if_true]
        rw [List.lookup_cons, List.lookup_cons, hb, ih']

/-- Lookup after rewriting every entry's value as a function of its key
and old value. -/
theorem lookup_map_value {α β : Type} [BEq α] [LawfulBEq α]
    (l : List (α × β)) (g : α → β → β) (k : α) :
    (l.map (fun p => (p.1, g p.1 p.2))).lookup k = (l.lookup k).map (g k) := by
  induction l with
  | nil => rfl
  | cons p l ih =>
    obtain ⟨a, b⟩ := p
    by_cases hk : k = a
    · subst hk
      rw [List.map_cons, List.lookup_cons, List.lookup_cons, beq_self_eq_true]
      rfl
    · have hb : (k == a) = false := by simp [hk]
      rw [List.map_cons, List.lookup_cons, List.lookup_cons, hb, ih]

/-- As long as a cycle classified at least one device, `update_gui` makes
the frames agree with the cycle's dict on every name: stale names are
destroyed, present names are rebuilt from the cycle's data. -/
theorem update_gui_frames_lookup (st : GuiState) (devices : List (String × DeviceInfo))
    (hne : devices ≠ []) (name : String) :
    (update_gui st devices).device_frames.lookup name = devices.lookup name := by
  have hemp : devices.isEmpty = false := by
    cases devices with
    | nil => exact absurd rfl hne
    | cons d devices => rfl
  unfold update_gui
  rw [hemp]
  simp only [Bool.false_eq_true, if_false]
  rw [lookup_append_first,
    lookup_map_value _ (fun a b => (devices.lookup a).getD b) name]
  cases hk : (st.device_frames.filter (fun p => (devices.lookup p.1).isSome)).lookup name with
  | some v =>
    have hmem := mem_of_lookup_eq_some hk
    have hsome : (devices.lookup name).isSome = true := by
      have := List.of_mem_filter hmem
      simpa using this
    obtain ⟨w, hw⟩ := Option.isSome_iff_exists.mp hsome
    rw [hw]
    rfl
  | none =>
    have hnotmem : name ∉
        (st.device_frames.filter (fun p => (devices.lookup p.1).isSome)).map Prod.fst :=
      (lookup_eq_none_iff_keys _ _).mp hk
    exact lookup_filter_of_key devices _ name
      (fun d _ hd => by
        simp only [Bool.not_eq_true']
        rw [← hd] at hnotmem
        simpa using hnotmem)

theorem C3_witness :
    (classifyObs (devStd, advStd) =
      some (pyOr devStd.name "Unknown Device", DeviceInfo.standard devStd.address) ∧
    (devStd.name = none → pyOr devStd.name "Unknown Device" = "Unknown Device")) :=
  (C3_standard_battery_classification devStd advStd (by simp [advStd])).1 rfl

theorem scan_trace_cons (c : List (Device × Advertisement))
    (cycles : List (List (Device × Advertisement))) :
    scan_trace (c :: cycles) = scan_cycle_events c ++ scan_trace cycles := by
  simp [scan_trace]

/-- C5. A cycle that classifies zero qualifying devices still publishes
the (empty) snapshot to the presentation boundary, and consuming that
snapshot signals the "No devices found. Retrying..." status while changing
nothing else — it is not treated as an error. -/
theorem C5_zero_devices_not_an_error (obs : List (Device × Advertisement)) (st : GuiState)
    (h : scan_and_update_classify obs = []) :
    GuiEvent.snapshotUpdate [] ∈ scan_cycle_events obs ∧
    apply_event st (GuiEvent.snapshotUpdate (scan_and_update_classify obs)) =
      { st with status := "No devices found. Retrying..." } := by
  constructor
  · simp [scan_cycle_events, h]
  · rw [h]
    simp [apply_event, update_gui]

theorem C5_witness :
    scan_and_update_classify cycleEmpty = [] ∧
    (GuiEvent.snapshotUpdate [] ∈ scan_cycle_events cycleEmpty ∧
    apply_event st0 (GuiEvent.snapshotUpdate (scan_and_update_classify cycleEmpty)) =
      { st0 with status := "No devices found. Retrying..." }) :=
  ⟨rfl, C5_zero_devices_not_an_error cycleEmpty st0 rfl⟩

/-- C6 counterexample. The claim fails when cycle N+1 classifies zero
devices: `update_gui` returns early on an empty dict, so the "AirPods"
frame published in cycle N survives cycle N+1 even though "AirPods" is
absent from cycle N+1's classified devices. -/
theorem C6_counterexample :
    scan_and_update_classify cycleEmpty = [] ∧
    ((apply_cycle st0 cycleAir).device_frames.lookup "AirPods").isSome = true ∧
    ((apply_cycle (apply_cycle st0 cycleAir) cycleEmpty).device_frames.lookup
       "AirPods").isSome = true := by
  refine ⟨rfl, ?_, ?_⟩ <;> rfl

/-- C6 amended. Snapshot replacement is total for every cycle whose
classified device set is nonempty: after such a cycle the frames agree with
the cycle's classified dict on every name — a name absent from the cycle's
devices is absent from the presentation state, and a name present is bound
to the entry rebuilt from the cycle's data (not patched from the old
frame).  (A cycle classifying zero devices leaves the old frames up.) -/
theorem C6_total_replacement_when_nonempty (st : GuiState)
    (obs : List (Device × Advertisement)) (name : String)
    (hne : scan_and_update_classify obs ≠ []) :
    (apply_cycle st obs).device_frames.lookup name =
      (scan_and_update_classify obs).lookup name := by
  show (apply_event (apply_event (apply_event st
      (GuiEvent.statusUpdate "Scanning..."))
      (GuiEvent.snapshotUpdate (scan_and_update_classify obs)))
      (GuiEvent.statusUpdate "Scan complete. Next scan in 15s.")).device_frames.lookup name =
    (scan_and_update_classify obs).lookup name
  simp only [apply_event]
  exact update_gui_frames_lookup _ _ hne name

theorem C6_witness :
    scan_and_update_classify cycleAir ≠ [] ∧
    (apply_cycle st0 cycleAir).device_frames.lookup "AirPods" =
      (scan_and_update_classify cycleAir).lookup "AirPods" :=
  ⟨by decide, C6_total_replacement_when_nonempty st0 cycleAir "AirPods" (by decide)⟩

/-- C7. Per cycle the controller queues exactly three events in order:
the "Scanning..." status, the cycle's snapshot, then the scan-complete
status; a scan-complete status at trace position `3k+2` is immediately
preceded at `3k+1` by cycle `k`'s own snapshot, never a stale one. -/
theorem C7_event_order (cycles : List (List (Device × Advertisement)))
    (k : Nat) (obs : List (Device × Advertisement)) (h : cycles[k]? = some obs) :
    (scan_trace cycles).length = 3 * cycles.length ∧
    (scan_trace cycles)[3 * k]? = some (GuiEvent.statusUpdate "Scanning...") ∧
    (scan_trace cycles)[3 * k + 1]? =
      some (GuiEvent.snapshotUpdate (scan_and_update_classify obs)) ∧
    (scan_trace cycles)[3 * k + 2]? =
      some (GuiEvent.statusUpdate "Scan complete. Next scan in 15s.") := by
  have hlen : ∀ cs : List (List (Device × Advertisement)),
      (scan_trace cs).length = 3 * cs.length := by
    intro cs
    induction cs with
    | nil => rfl
    | cons c cs ih =>
      rw [scan_trace_cons, List.length_append, ih]
      simp [scan_cycle_events]
      omega
  refine ⟨hlen cycles, ?_⟩
  induction cycles generalizing k with
  | nil => simp at h
  | cons c cycles ih =>
    rw [scan_trace_cons]
    cases k with
    | zero =>
      simp only [List.getElem?_cons_zero, Option.some.injEq] at h
      subst h
      simp [scan_cycle_events]
    | succ j =>
      simp only [List.getElem?_cons_succ] at h
      have e0 : 3 * (j + 1) = 3 * j + 1 + 1 + 1 := by omega
      have e1 : 3 * (j + 1) + 1 = 3 * j + 1 + 1 + 1 + 1 := by omega
      have e2 : 3 * (j + 1) + 2 = 3 * j + 2 + 1 + 1 + 1 := by omega
      have hev : scan_cycle_events c ++ scan_trace cycles =
          GuiEvent.statusUpdate "Scanning..." ::
          GuiEvent.snapshotUpdate (scan_and_update_classify c) ::
          GuiEvent.statusUpdate "Scan complete. Next scan in 15s." ::
          scan_trace cycles := rfl
      rw [hev, e2, e1, e0]
      simp only [List.getElem?_cons_succ]
      exact ih j h

theorem C7_witness :
    ([cycleEmpty] : List (List (Device × Advertisement)))[0]? = some cycleEmpty ∧
    ((scan_trace [cycleEmpty]).length = 3 * ([cycleEmpty] : List _).length ∧
    (scan_trace [cycleEmpty])[3 * 0]? = some (GuiEvent.statusUpdate "Scanning...") ∧
    (scan_trace [cycleEmpty])[3 * 0 + 1]? =
      some (GuiEvent.snapshotUpdate (scan_and_update_classify cycleEmpty)) ∧
    (scan_trace [cycleEmpty])[3 * 0 + 2]? =
      some (GuiEvent.statusUpdate "Scan complete. Next scan in 15s.")) :=
  ⟨rfl, C7_event_order [cycleEmpty] 0 cycleEmpty rfl⟩

end AirpodsBattery
